import Mathlib

/-!
Verification of `fastify-plugin-storagely` (src/src/index.ts).

The plugin glues the `unstorage` key-value engine onto a Fastify server:
it constructs one storage handle, decorates the server instance and the
request context with three access surfaces (`storagely`, `storagelyPrefix`,
`storagelySnapshot`), and registers an `onClose` hook that runs the user's
optional `close` callback and then the cleanup sequence
(unwatch, unmount every mount, dispose) inside a `finally` block.

The storage engine itself (`unstorage`, together with the repository's
in-memory driver `src/drivers/memory` referenced by the tests) is not part
of `src/`; its key-value, prefixing and snapshot semantics are modelled
from the specification's data-model and component-design sections.  The
plugin body, the two factory helpers and the `onClose` hook are translated
from `src/src/index.ts` directly.  Stateful JavaScript is embedded by
explicit state passing: the mutable backing store is a `Store` value
threaded through every operation, and the `onClose` hook is a function
from the behaviour of its effectful sub-operations to the trace of steps
it performs together with its outcome (normal return or raised error).
-/

namespace Storagely

/-- Modelled from the spec: the state of the in-memory backend
(`src/drivers/memory`, absent from `src/`) — a finite key-value map,
represented as an association list in which `setItem` keeps keys unique. -/
abbrev Store := List (String × String)

/-- Modelled from the spec: read a key from the store (`getItem`);
returns the value of the first matching entry, or `none` when absent. -/
def getItem : Store → String → Option String
  | [], _ => none
  | (k', v) :: rest, k => if k' = k then some v else getItem rest k

/-- Modelled from the spec: write a key into the store (`setItem`),
overwriting any previous entry for that key. -/
def setItem (s : Store) (k v : String) : Store :=
  (k, v) :: s.filter (fun p => p.1 ≠ k)

/-- Boolean test that the character list `l₁` is an initial segment of `l₂`;
used to express which keys lie under a base prefix. -/
def keyUnder : List Char → List Char → Bool
  | [], _ => true
  | _ :: _, [] => false
  | a :: as, b :: bs => a = b && keyUnder as bs

/-- Modelled from the spec: a key `k` lies under a base `B` when `B` is an
initial segment of `k`. -/
def isUnder (base k : String) : Bool :=
  keyUnder base.data k.data

/-- Modelled from the spec: the local name of a key under a base — the key
with the base prefix stripped. -/
def stripBase (base k : String) : String :=
  ⟨k.data.drop base.data.length⟩

/-- Modelled from the spec: a snapshot is a mapping from local key names
(base stripped) to captured values. -/
abbrev Snapshot := List (String × String)

/-- Modelled from the spec: `snapshot(storage, base)` enumerates every key
under `base` and returns the mapping from each key's local name (base
stripped) to its current value. -/
def snapshot (s : Store) (base : String) : Snapshot :=
  s.filterMap fun p =>
    if isUnder base p.1 then some (stripBase base p.1, p.2) else none

/-- Modelled from the spec: `restoreSnapshot(storage, snapshot, base)`
writes every key of the snapshot back under `base`; it never deletes. -/
def restoreSnapshot (s : Store) (snap : Snapshot) (base : String) : Store :=
  snap.foldl (fun st p => setItem st (base ++ p.1) p.2) s

/-- A storage handle's operation surface over the threaded `Store` state;
this is the shape shared by the raw handle and by prefixed views. -/
structure StorageView where
  getItem : Store → String → Option String
  setItem : Store → String → String → Store

/-- Modelled from the spec: the raw storage handle produced by
`createStorage` — the identity surface over the backing store. -/
def baseStorage : StorageView :=
  { getItem := getItem, setItem := setItem }

/-- Modelled from the spec: `prefixStorage(storage, base)` transparently
adds the fixed prefix to every key on the way in. -/
def prefixStorage (storage : StorageView) (base : String) : StorageView :=
  { getItem := fun s k => storage.getItem s (base ++ k)
    setItem := fun s k v => storage.setItem s (base ++ k) v }

/-- From src/src/index.ts: `createPrefixedStoragely` returns the factory
that maps a prefix string to the prefixed view of the shared handle. -/
def createPrefixedStoragely (storage : StorageView) : String → StorageView :=
  fun p => prefixStorage storage p

/-- From src/src/index.ts: the callable-with-method shape of the
`storagelySnapshot` decoration — `take` is the callable, `restore` the
attached method (its `base` argument is optional, defaulting to the root). -/
structure StoragelySnapshotReturn where
  take : Store → String → Snapshot
  restore : Store → Snapshot → Option String → Store

/-- From src/src/index.ts: `createSnapshotedStoragely` wires the engine's
`snapshot` and `restoreSnapshot` onto the shared handle.  In this
state-passing embedding the handle's backing state is the explicit `Store`
argument, so the closed-over handle carries no further data. -/
def createSnapshotedStoragely (_storage : StorageView) : StoragelySnapshotReturn :=
  { take := fun s base => snapshot s base
    restore := fun s snap base => restoreSnapshot s snap (base.getD "") }

/-- Errors raised by the user callback or by engine operations are treated
as opaque values. -/
abbrev Err := String

/-- Modelled from the spec: the behaviour of the optional user `close`
callback — absent, completing normally, or throwing/rejecting with an
error. -/
inductive CloseEffect where
  | absent
  | succeeds
  | fails (e : Err)
deriving DecidableEq

/-- The environment the `onClose` hook runs against: whether `unwatch`
rejects, which mounts `getMounts` reports at the root, and whether each
`unmount` and the final `dispose` reject. -/
structure EngineWorld where
  unwatchErr : Option Err
  mounts : List String
  unmountErr : String → Option Err
  disposeErr : Option Err

/-- One observable step performed by the `onClose` hook.  An `unmount`
step records the base being unmounted and whether driver-resource
disposal was requested (the second argument of `storagely.unmount`). -/
inductive Step where
  | closeCb
  | unwatch
  | unmount (base : String) (disposeResources : Bool)
  | dispose
deriving DecidableEq

/-- From src/src/index.ts: the `try` part of the hook,
`await opts.close?.()` — runs the callback when supplied and records its
outcome. -/
def tryPart : CloseEffect → List Step × Option Err
  | CloseEffect.absent => ([], none)
  | CloseEffect.succeeds => ([Step.closeCb], none)
  | CloseEffect.fails e => ([Step.closeCb], some e)

/-- From src/src/index.ts: the operations of the `finally` block in
source order — `unwatch()`, then `unmount(base, true)` for each mount of
`getMounts('')`, then `dispose()` — each paired with its outcome. -/
def cleanupOps (w : EngineWorld) : List (Step × Option Err) :=
  (Step.unwatch, w.unwatchErr) ::
    ((w.mounts.map fun b => (Step.unmount b true, w.unmountErr b)) ++
      [(Step.dispose, w.disposeErr)])

/-- Sequential `await` semantics: operations run in order and the first
rejection aborts the remaining ones and becomes the raised error. -/
def runOps : List (Step × Option Err) → List Step × Option Err
  | [] => ([], none)
  | (st, none) :: rest =>
    let r := runOps rest
    (st :: r.1, r.2)
  | (st, some e) :: _ => ([st], some e)

/-- From src/src/index.ts lines 115-128: the `onClose` hook body,
`try { await opts.close?.() } finally { ...cleanup... }`.  JavaScript
`finally` semantics: the cleanup block always starts; an error raised
inside it replaces any pending error of the `try` part, and otherwise the
`try` part's error is re-raised once the cleanup block completes. -/
def onCloseHook (c : CloseEffect) (w : EngineWorld) : List Step × Option Err :=
  let t := tryPart c
  let f := runOps (cleanupOps w)
  (t.1 ++ f.1,
    match f.2 with
    | some e => some e
    | none => t.2)

/-- From src/src/index.ts: the plugin options — the engine's construction
options (here reduced to whether `createStorage` throws, modelled from the
spec's configuration-error taxonomy) plus the optional `close` callback. -/
structure FastifyStoragelyOptions where
  driverError : Option Err
  close : CloseEffect

/-- Modelled from the spec: `createStorage(opts)` returns the ready raw
handle synchronously, or raises the engine's configuration error
unchanged. -/
def createStorage (opts : FastifyStoragelyOptions) : Except Err StorageView :=
  match opts.driverError with
  | some e => Except.error e
  | none => Except.ok baseStorage

/-- The body of a registered `onClose` hook, as a function of the engine
environment at shutdown time. -/
abbrev HookBody := EngineWorld → List Step × Option Err

/-- The decoration surface of the host server: the three server-level
decorations, the three request-level decorations, and the list of
registered `onClose` hooks. -/
structure FastifyServer where
  storagely : Option StorageView
  storagelyPrefix : Option (String → StorageView)
  storagelySnapshot : Option StoragelySnapshotReturn
  reqStoragely : Option StorageView
  reqStoragelyPrefix : Option (String → StorageView)
  reqStoragelySnapshot : Option StoragelySnapshotReturn
  onCloseHooks : List HookBody

/-- From src/src/index.ts lines 97-131: the plugin body.  `createStorage`
runs first; if it throws, the error propagates synchronously and the
server is left untouched.  Otherwise the same handle and factories are
decorated onto the server-level and request-level surfaces and the
`onClose` hook is appended. -/
def plugin (opts : FastifyStoragelyOptions) (fastify : FastifyServer) :
    FastifyServer × Option Err :=
  match createStorage opts with
  | Except.error e => (fastify, some e)
  | Except.ok storagely =>
    ({ fastify with
        storagely := some storagely
        reqStoragely := some storagely
        storagelyPrefix := some (createPrefixedStoragely storagely)
        reqStoragelyPrefix := some (createPrefixedStoragely storagely)
        storagelySnapshot := some (createSnapshotedStoragely storagely)
        reqStoragelySnapshot := some (createSnapshotedStoragely storagely)
        onCloseHooks := fastify.onCloseHooks ++ [onCloseHook opts.close] },
      none)

/-- A fresh server with no decorations and no hooks. -/
def emptyServer : FastifyServer :=
  ⟨none, none, none, none, none, none, []⟩

/-- An engine environment in which every cleanup operation succeeds. -/
def cleanOk (w : EngineWorld) : Prop :=
  w.unwatchErr = none ∧ (∀ b, w.unmountErr b = none) ∧ w.disposeErr = none

end Storagely

namespace Storagely

/-! Basic store lemmas. -/

theorem getItem_setItem_self (s : Store) (k v : String) :
    getItem (setItem s k v) k = some v := by
  simp [getItem, setItem]

theorem getItem_filter_ne (s : Store) (k k' : String) (h : k ≠ k') :
    getItem (s.filter (fun p => p.1 ≠ k')) k = getItem s k := by
  induction s with
  | nil => rfl
  | cons p rest ih =>
    obtain ⟨a, b⟩ := p
    simp only [List.filter_cons]
    by_cases ha : a = k'
    · subst ha
      rw [if_neg (by simp)]
      rw [ih]
      simp only [getItem]
      rw [if_neg fun e => h e.symm]
    · rw [if_pos (by simp [ha])]
      simp only [getItem, ih]

theorem getItem_setItem_ne (s : Store) (k k' v : String) (h : k' ≠ k) :
    getItem (setItem s k' v) k = getItem s k := by
  simp only [setItem, getItem]
  rw [if_neg h]
  exact getItem_filter_ne s k k' fun e => h e.symm

theorem string_ext (a b : String) (h : a.data = b.data) : a = b := by
  cases a; cases b; cases h; rfl

theorem string_append_data (a b : String) : (a ++ b).data = a.data ++ b.data := by
  cases a; cases b; rfl

theorem keyUnder_iff (l₁ l₂ : List Char) : keyUnder l₁ l₂ = true ↔ ∃ t, l₂ = l₁ ++ t := by
  induction l₁ generalizing l₂ with
  | nil => simp [keyUnder]
  | cons a as ih =>
    cases l₂ with
    | nil => simp [keyUnder]
    | cons b bs =>
      simp only [keyUnder, Bool.and_eq_true, decide_eq_true_eq, ih, List.cons_append,
        List.cons.injEq]
      constructor
      · rintro ⟨rfl, t, rfl⟩; exact ⟨t, rfl, rfl⟩
      · rintro ⟨t, rfl, rfl⟩; exact ⟨rfl, t, rfl⟩

theorem append_stripBase (B k : String) (h : isUnder B k = true) :
    B ++ stripBase B k = k := by
  obtain ⟨t, ht⟩ := (keyUnder_iff B.data k.data).mp h
  apply string_ext
  rw [string_append_data]
  simp only [stripBase, ht, List.drop_left]

theorem mem_snapshot (s : Store) (B : String) (p : String × String)
    (hp : p ∈ snapshot s B) :
    ∃ k v, (k, v) ∈ s ∧ isUnder B k = true ∧ p = (stripBase B k, v) := by
  simp only [snapshot, List.mem_filterMap] at hp
  obtain ⟨q, hq, he⟩ := hp
  by_cases hu : isUnder B q.1 = true
  · rw [if_pos hu] at he
    exact ⟨q.1, q.2, by simpa using hq, hu, (Option.some.injEq _ _ ▸ he).symm⟩
  · rw [if_neg hu] at he
    exact absurd he (by simp)

theorem getItem_restore_of_notin (snap : Snapshot) (s : Store) (B k : String)
    (h : ∀ p ∈ snap, B ++ p.1 ≠ k) :
    getItem (restoreSnapshot s snap B) k = getItem s k := by
  induction snap generalizing s with
  | nil => rfl
  | cons p rest ih =>
    show getItem (restoreSnapshot (setItem s (B ++ p.1) p.2) rest B) k = getItem s k
    rw [ih (setItem s (B ++ p.1) p.2) fun q hq => h q (List.mem_cons_of_mem p hq)]
    exact getItem_setItem_ne s k (B ++ p.1) p.2 (h p (List.mem_cons_self p rest))

/-! Shutdown-hook lemmas. -/

theorem runOps_clean (l : List (Step × Option Err)) (h : ∀ p ∈ l, p.2 = none) :
    runOps l = (l.map Prod.fst, none) := by
  induction l with
  | nil => rfl
  | cons p rest ih =>
    obtain ⟨st, o⟩ := p
    have ho : o = none := h (st, o) (List.mem_cons_self _ _)
    subst ho
    show (st :: (runOps rest).1, (runOps rest).2) = _
    rw [ih fun q hq => h q (List.mem_cons_of_mem _ hq)]
    rfl

theorem cleanupOps_clean (w : EngineWorld) (hw : cleanOk w) :
    ∀ p ∈ cleanupOps w, p.2 = none := by
  intro p hp
  simp only [cleanupOps, List.mem_cons, List.mem_append, List.mem_map,
    List.mem_singleton] at hp
  rcases hp with h1 | ⟨b, _, h2⟩ | h3 | h4
  · rw [h1]; exact hw.1
  · rw [← h2]; exact hw.2.1 b
  · rw [h3]; exact hw.2.2
  · exact absurd h4 (List.not_mem_nil p)

theorem onCloseHook_clean (c : CloseEffect) (w : EngineWorld) (hw : cleanOk w) :
    onCloseHook c w
      = ((tryPart c).1 ++
          (Step.unwatch :: ((w.mounts.map fun b => Step.unmount b true) ++ [Step.dispose])),
        (tryPart c).2) := by
  show ((tryPart c).1 ++ (runOps (cleanupOps w)).1, _) = _
  rw [runOps_clean (cleanupOps w) (cleanupOps_clean w hw)]
  simp [cleanupOps, List.map_map, Function.comp]

/-! Claim theorems. -/

/-- C1: on server shutdown, the hook the plugin registered performs
exactly four steps in this fixed order — (1) invoke and await the
supplied close callback, (2) stop all active watch subscriptions,
(3) unmount every mount registered at the root with driver-resource
disposal requested, (4) dispose the storage handle. -/
theorem onClose_ordered_cleanup (opts : FastifyStoragelyOptions) (f : FastifyServer)
    (w : EngineWorld) (hd : opts.driverError = none)
    (hc : opts.close = CloseEffect.succeeds) (hw : cleanOk w) :
    (plugin opts f).1.onCloseHooks = f.onCloseHooks ++ [onCloseHook opts.close] ∧
    onCloseHook opts.close w
      = (Step.closeCb :: Step.unwatch ::
          ((w.mounts.map fun b => Step.unmount b true) ++ [Step.dispose]), none) := by
  constructor
  · simp [plugin, createStorage, hd]
  · rw [hc, onCloseHook_clean CloseEffect.succeeds w hw]
    rfl

/-- C1 witness: a concrete error-free shutdown with one mount. -/
theorem onClose_ordered_cleanup_witness :
    cleanOk ⟨none, ["m"], fun _ => none, none⟩ ∧
    onCloseHook CloseEffect.succeeds ⟨none, ["m"], fun _ => none, none⟩
      = ([Step.closeCb, Step.unwatch, Step.unmount "m" true, Step.dispose], none) :=
  ⟨⟨rfl, fun _ => rfl, rfl⟩, by
    have h := (onClose_ordered_cleanup ⟨none, CloseEffect.succeeds⟩ emptyServer
      ⟨none, ["m"], fun _ => none, none⟩ rfl rfl ⟨rfl, fun _ => rfl, rfl⟩).2
    simpa using h⟩

/-- C2: when the close callback throws, the cleanup steps 2-4 (unwatch,
unmount every mount, dispose) still all execute, and the callback's error
is the hook's outcome after cleanup completes, not swallowed.  (Failures
of the cleanup operations themselves are the subject of C3.) -/
theorem onClose_callback_error_cleanup (w : EngineWorld) (e : Err) (hw : cleanOk w) :
    onCloseHook (CloseEffect.fails e) w
      = (Step.closeCb :: Step.unwatch ::
          ((w.mounts.map fun b => Step.unmount b true) ++ [Step.dispose]), some e) := by
  rw [onCloseHook_clean (CloseEffect.fails e) w hw]
  rfl

/-- C2 witness: a concrete shutdown whose callback throws. -/
theorem onClose_callback_error_cleanup_witness :
    cleanOk ⟨none, ["m"], fun _ => none, none⟩ ∧
    onCloseHook (CloseEffect.fails "cbBoom") ⟨none, ["m"], fun _ => none, none⟩
      = ([Step.closeCb, Step.unwatch, Step.unmount "m" true, Step.dispose],
          some "cbBoom") :=
  ⟨⟨rfl, fun _ => rfl, rfl⟩, by
    have h := onClose_callback_error_cleanup ⟨none, ["m"], fun _ => none, none⟩
      "cbBoom" ⟨rfl, fun _ => rfl, rfl⟩
    simpa using h⟩

/-- C3 counterexample: when stopping the watch subscriptions throws, the
hook performs no further step — in particular neither the unmount of the
registered mount nor the handle's disposal is executed — refuting the
claim that disposal is unconditional and that all cleanup steps run
before an error is re-raised. -/
theorem dispose_skipped_on_unwatch_error :
    (onCloseHook CloseEffect.succeeds ⟨some "boom", ["m"], fun _ => none, none⟩).1
      = [Step.closeCb, Step.unwatch] ∧
    Step.dispose ∉
      (onCloseHook CloseEffect.succeeds ⟨some "boom", ["m"], fun _ => none, none⟩).1 ∧
    Step.unmount "m" true ∉
      (onCloseHook CloseEffect.succeeds ⟨some "boom", ["m"], fun _ => none, none⟩).1 := by
  refine ⟨rfl, ?_, ?_⟩ <;> decide

/-- C3 (amended): if stopping the watch subscriptions (step 2) throws,
then whatever the callback did, the remaining cleanup steps — the
unmounts and the handle's disposal — are skipped, and step 2's error is
re-raised immediately (replacing any pending callback error). -/
theorem cleanup_error_aborts_remaining (c : CloseEffect) (w : EngineWorld) (e : Err)
    (h : w.unwatchErr = some e) :
    (onCloseHook c w).1 = (tryPart c).1 ++ [Step.unwatch] ∧
    (onCloseHook c w).2 = some e := by
  have hrun : runOps (cleanupOps w) = ([Step.unwatch], some e) := by
    simp [cleanupOps, runOps, h]
  constructor
  · show (tryPart c).1 ++ (runOps (cleanupOps w)).1 = _
    rw [hrun]
  · show (match (runOps (cleanupOps w)).2 with
      | some e => some e
      | none => (tryPart c).2) = some e
    rw [hrun]

/-- C3 (amended) witness: a failing unwatch after a failing callback — the
unwatch error replaces the callback error and nothing after unwatch runs. -/
theorem cleanup_error_aborts_remaining_witness :
    (⟨some "boom", ["m"], fun _ => none, none⟩ : EngineWorld).unwatchErr = some "boom" ∧
    (onCloseHook (CloseEffect.fails "cbBoom")
        ⟨some "boom", ["m"], fun _ => none, none⟩).1
      = [Step.closeCb, Step.unwatch] ∧
    (onCloseHook (CloseEffect.fails "cbBoom")
        ⟨some "boom", ["m"], fun _ => none, none⟩).2 = some "boom" :=
  ⟨rfl, by
    have h := cleanup_error_aborts_remaining (CloseEffect.fails "cbBoom")
      ⟨some "boom", ["m"], fun _ => none, none⟩ "boom" rfl
    exact ⟨h.1, h.2⟩⟩

/-- C9: when no close callback is supplied, the hook still executes the
full cleanup sequence — unwatch, unmount every mount registered at the
root, dispose — and completes without error. -/
theorem onClose_no_callback (w : EngineWorld) (hw : cleanOk w) :
    onCloseHook CloseEffect.absent w
      = (Step.unwatch ::
          ((w.mounts.map fun b => Step.unmount b true) ++ [Step.dispose]), none) := by
  rw [onCloseHook_clean CloseEffect.absent w hw]
  rfl

/-- C9 witness: a concrete callback-free shutdown with two mounts. -/
theorem onClose_no_callback_witness :
    cleanOk ⟨none, ["m1", "m2"], fun _ => none, none⟩ ∧
    onCloseHook CloseEffect.absent ⟨none, ["m1", "m2"], fun _ => none, none⟩
      = ([Step.unwatch, Step.unmount "m1" true, Step.unmount "m2" true, Step.dispose],
          none) :=
  ⟨⟨rfl, fun _ => rfl, rfl⟩, by
    have h := onClose_no_callback ⟨none, ["m1", "m2"], fun _ => none, none⟩
      ⟨rfl, fun _ => rfl, rfl⟩
    simpa using h⟩

/-- C4: after a successful registration the request-level decorations are
the very same handle and factory objects as the server-level ones — all
three pairs are equal, both `storagely` surfaces are the one raw handle,
and a write through the server surface is observed by a read through the
request surface. -/
theorem decorations_shared_handle (opts : FastifyStoragelyOptions) (f : FastifyServer)
    (s : Store) (k v : String) (hd : opts.driverError = none) :
    (plugin opts f).1.reqStoragely = (plugin opts f).1.storagely ∧
    (plugin opts f).1.reqStoragelyPrefix = (plugin opts f).1.storagelyPrefix ∧
    (plugin opts f).1.reqStoragelySnapshot = (plugin opts f).1.storagelySnapshot ∧
    (plugin opts f).1.storagely = some baseStorage ∧
    (plugin opts f).1.reqStoragely = some baseStorage ∧
    baseStorage.getItem (baseStorage.setItem s k v) k = some v := by
  simp only [plugin, createStorage, hd]
  exact ⟨trivial, trivial, trivial, trivial, trivial, getItem_setItem_self s k v⟩

/-- C4 witness: a concrete registration on a fresh server, with the
shared-handle observation evaluated at key `"foo"`. -/
theorem decorations_shared_handle_witness :
    (⟨none, CloseEffect.absent⟩ : FastifyStoragelyOptions).driverError = none ∧
    (plugin ⟨none, CloseEffect.absent⟩ emptyServer).1.reqStoragely
      = (plugin ⟨none, CloseEffect.absent⟩ emptyServer).1.storagely ∧
    baseStorage.getItem (baseStorage.setItem [] "foo" "bar") "foo" = some "bar" :=
  ⟨rfl, by
    have h := decorations_shared_handle ⟨none, CloseEffect.absent⟩ emptyServer
      [] "foo" "bar" rfl
    exact ⟨h.1, h.2.2.2.2.2⟩⟩

/-- C5: for all prefixes P, keys K and values V, a write of V at K through
the view `storagelyPrefix P` is read back as V by the raw handle at key
`P ++ K`, and a raw write of V at `P ++ K` is read back as V through the
view at K. -/
theorem prefixed_view_raw_agreement (P K V : String) (s : Store) :
    getItem ((createPrefixedStoragely baseStorage P).setItem s K V) (P ++ K) = some V ∧
    (createPrefixedStoragely baseStorage P).getItem (setItem s (P ++ K) V) K = some V :=
  ⟨getItem_setItem_self s (P ++ K) V, getItem_setItem_self s (P ++ K) V⟩

/-- C8: the `storagelyPrefix` factory is pure glue — a view it returns
interoperates with a view returned by a second call with the same prefix
(a write through one is read through the other, as they address the same
underlying keys), and the empty-string prefix yields the identity view on
the raw handle, for reads and for writes. -/
theorem prefixed_factory_identity (P : String) (s : Store) (k v : String) :
    (createPrefixedStoragely baseStorage P).getItem
        ((createPrefixedStoragely baseStorage P).setItem s k v) k = some v ∧
    (createPrefixedStoragely baseStorage "").getItem s k = baseStorage.getItem s k ∧
    (createPrefixedStoragely baseStorage "").setItem s k v
      = baseStorage.setItem s k v :=
  ⟨getItem_setItem_self s (P ++ k) v, rfl, rfl⟩

/-- C7: restoring a snapshot writes only the keys the snapshot holds —
every key not named by any snapshot entry under the base keeps exactly its
previous value (restore is additive/overwriting, never deleting). -/
theorem restore_frame (s : Store) (snap : Snapshot) (B k : String)
    (h : ∀ p ∈ snap, B ++ p.1 ≠ k) :
    getItem ((createSnapshotedStoragely baseStorage).restore s snap (some B)) k
      = getItem s k :=
  getItem_restore_of_notin snap s B k h

/-- C7 witness: restoring a one-entry snapshot leaves an unrelated
existing key untouched. -/
theorem restore_frame_witness :
    (∀ p ∈ [("y", "2")], "" ++ p.1 ≠ "x") ∧
    getItem ((createSnapshotedStoragely baseStorage).restore
        [("x", "1")] [("y", "2")] (some "")) "x" = getItem [("x", "1")] "x" :=
  ⟨by decide, restore_frame [("x", "1")] [("y", "2")] "" "x" (by decide)⟩

/-- C6: for a base B and a key under it holding a value, taking a snapshot
of B via the `storagelySnapshot` callable, mutating the key, then
restoring the snapshot via its `restore` method returns the key to its
pre-mutation value. -/
theorem snapshot_restore_roundtrip (s : Store) (B k v₁ v₂ : String)
    (h : isUnder B k = true) :
    getItem ((createSnapshotedStoragely baseStorage).restore
        (setItem (setItem s k v₁) k v₂)
        ((createSnapshotedStoragely baseStorage).take (setItem s k v₁) B)
        (some B)) k = some v₁ := by
  show getItem (restoreSnapshot (setItem (setItem s k v₁) k v₂)
      (snapshot (setItem s k v₁) B) B) k = some v₁
  have hsnap : snapshot (setItem s k v₁) B
      = (stripBase B k, v₁) :: snapshot (s.filter fun p => p.1 ≠ k) B := by
    simp [snapshot, setItem, List.filterMap_cons, h]
  rw [hsnap]
  show getItem (restoreSnapshot
      (setItem (setItem (setItem s k v₁) k v₂) (B ++ stripBase B k) v₁)
      (snapshot (s.filter fun p => p.1 ≠ k) B) B) k = some v₁
  have hnot : ∀ p ∈ snapshot (s.filter fun p => p.1 ≠ k) B, B ++ p.1 ≠ k := by
    intro p hp
    obtain ⟨k', v', hmem, hu, hpe⟩ := mem_snapshot _ _ _ hp
    subst hpe
    show B ++ stripBase B k' ≠ k
    rw [append_stripBase B k' hu]
    have hk' := (List.mem_filter.mp hmem).2
    simpa using hk'
  rw [getItem_restore_of_notin _ _ _ _ hnot]
  rw [append_stripBase B k h]
  exact getItem_setItem_self _ k v₁

/-- C6 witness: the spec's scenario — set `"foo"` to `"bar"`, snapshot the
root, set `"foo"` to `"baz"`, restore, and read `"bar"` back. -/
theorem snapshot_restore_roundtrip_witness :
    isUnder "" "foo" = true ∧
    getItem ((createSnapshotedStoragely baseStorage).restore
        (setItem (setItem [] "foo" "bar") "foo" "baz")
        ((createSnapshotedStoragely baseStorage).take (setItem [] "foo" "bar") "")
        (some "")) "foo" = some "bar" :=
  ⟨by decide, snapshot_restore_roundtrip [] "" "foo" "bar" "baz" (by decide)⟩

/-- C10: when storage construction throws, registration is atomic — the
plugin returns the server unchanged (no server-level or request-level
decoration is added and no shutdown hook is registered) and the
construction error propagates to the caller. -/
theorem registration_atomic_on_error (opts : FastifyStoragelyOptions)
    (f : FastifyServer) (e : Err) (h : opts.driverError = some e) :
    plugin opts f = (f, some e) := by
  simp [plugin, createStorage, h]

/-- C10 witness: a concrete failing configuration on a fresh server. -/
theorem registration_atomic_on_error_witness :
    (⟨some "badDriver", CloseEffect.absent⟩ : FastifyStoragelyOptions).driverError
      = some "badDriver" ∧
    plugin ⟨some "badDriver", CloseEffect.absent⟩ emptyServer
      = (emptyServer, some "badDriver") :=
  ⟨rfl, registration_atomic_on_error ⟨some "badDriver", CloseEffect.absent⟩
    emptyServer "badDriver" rfl⟩

end Storagely
